import Mathlib

/-!
Verification of the s3utils library's key/path generation scheme and
client operations against its specification.

The pure key builders (`generateObjectKeyByDate`, `generateObjectKeyBase`,
`generateFolderDestinationByDate`) are embedded directly from the Go source.
The stateful client operations (`UploadFileBase`,
`UploadFileWithDateDestination`, `DeleteFolderByDate`, `IsObjectExists`) are
embedded as pure functions over explicit filesystem/provider oracles,
returning the result together with the trace of filesystem and network
effects the Go code would perform, in order.
-/

namespace S3Utils

/-- Decimal digit characters of `n`, most significant first, empty for `n = 0`.
`fuel`-structured so that it is kernel-reducible; `fuel = n` always suffices
since the argument shrinks by division by 10. -/
def natDigitsAux : Nat → Nat → List Char
  | 0, _ => []
  | fuel + 1, n => if n = 0 then [] else natDigitsAux fuel (n / 10) ++ [Nat.digitChar (n % 10)]

/-- Plain decimal rendering of a natural number, as Go's `fmt.Sprintf("%v", n)`
or `strconv.Itoa` produce for non-negative integers: no padding, no sign. -/
def natToStr (n : Nat) : String :=
  if n = 0 then "0" else String.mk (natDigitsAux n n)

/-- Zero-pad to width 2, as Go's `time.Time.Format` layouts `"01"`/`"02"`
(via `appendInt` with width 2) render month and day. -/
def pad2 (n : Nat) : String :=
  if n < 10 then "0" ++ natToStr n else natToStr n

/-- Zero-pad to width 4, as Go's `time.Time.Format` layout `"2006"`
(via `appendInt` with width 4) renders the year. -/
def pad4 (n : Nat) : String :=
  if n < 10 then "000" ++ natToStr n
  else if n < 100 then "00" ++ natToStr n
  else if n < 1000 then "0" ++ natToStr n
  else natToStr n

/-- The calendar-date component of a Go `time.Time` (UTC date, no clock):
`Year()`, `Month()`, `Day()`. Years are modelled as naturals (the library
only ever formats dates; all documented and tested dates are CE). -/
structure GoDate where
  year : Nat
  month : Nat
  day : Nat
deriving DecidableEq, Repr

/-- A `GoDate` that a Go `time.Time` can actually carry: `time.Date`
normalizes its arguments, so every `time.Time` has month 1–12 and
day 1–31. -/
def GoDate.Valid (t : GoDate) : Prop :=
  1 ≤ t.month ∧ t.month ≤ 12 ∧ 1 ≤ t.day ∧ t.day ≤ 31

instance (t : GoDate) : Decidable t.Valid := by
  unfold GoDate.Valid; infer_instance

/-- Go's `time.Time.IsZero`: the zero time is January 1, year 1
(restricted to the date fields this model carries). -/
def GoDate.isZero (t : GoDate) : Bool :=
  t.year == 1 && t.month == 1 && t.day == 1

/-- Go's `date.Format(time.DateOnly)`, layout `"2006-01-02"`:
four-digit zero-padded year, two-digit zero-padded month and day. -/
def dateOnly (t : GoDate) : String :=
  pad4 t.year ++ "-" ++ pad2 t.month ++ "-" ++ pad2 t.day

/-- The slash predicate used by `strings.Trim(s, "/")`'s cutset. -/
def isSlash (c : Char) : Bool := c == '/'

/-- Go's `strings.Trim(s, "/")`: remove all leading and all trailing `'/'`
characters. -/
def trimSlashes (s : String) : String :=
  String.mk (List.rdropWhile isSlash (List.dropWhile isSlash s.data))

/-- Go's `strings.Split(s, "/")` on the character list: split at every
`'/'`, keeping empty segments; never returns the empty list. -/
def splitOnSlash : List Char → List (List Char)
  | [] => [[]]
  | c :: cs =>
    if c = '/' then [] :: splitOnSlash cs
    else
      match splitOnSlash cs with
      | [] => [[c]]
      | s :: ss => (c :: s) :: ss

/-- The Go idiom `strings.Split(filePath, "/")[len(...)-1]`: the final
`'/'`-separated segment of a path. `splitOnSlash` never returns `[]`, so the
`getD` default is never used (Go indexes at `len-1`, which always exists). -/
def lastSegment (p : String) : String :=
  String.mk (((splitOnSlash p.data).getLast?).getD [])

/-- Embedding of `generateObjectKeyByDate` (the current, trimming variant):
trims the directory, takes the last `'/'`-segment of `filePath`, and formats
`"%s/_year=%v/_month=%v/_day=%v/_date=%v/%s"` with `date.Year()` (plain
decimal), `date.Format("01")`, `date.Format("02")`,
`date.Format(time.DateOnly)`. -/
def generateObjectKeyByDate (directory filePath : String) (date : GoDate) : String :=
  trimSlashes directory ++ "/_year=" ++ natToStr date.year ++ "/_month=" ++ pad2 date.month
    ++ "/_day=" ++ pad2 date.day ++ "/_date=" ++ dateOnly date ++ "/" ++ lastSegment filePath

/-- Embedding of `generateObjectKeyBase`: trims the directory and formats
`"%s/%s"`. -/
def generateObjectKeyBase (directory filename : String) : String :=
  trimSlashes directory ++ "/" ++ filename

/-- Embedding of `generateFolderDestinationByDate`: like
`generateObjectKeyByDate` but without the trailing `/fileName`. -/
def generateFolderDestinationByDate (directory : String) (date : GoDate) : String :=
  trimSlashes directory ++ "/_year=" ++ natToStr date.year ++ "/_month=" ++ pad2 date.month
    ++ "/_day=" ++ pad2 date.day ++ "/_date=" ++ dateOnly date

example : generateObjectKeyByDate "dir1" "test.txt" ⟨2022, 1, 1⟩ =
    "dir1/_year=2022/_month=01/_day=01/_date=2022-01-01/test.txt" := by decide

example : generateObjectKeyByDate "/directory/raw/" "local_dir/test.json" ⟨2024, 9, 30⟩ =
    "directory/raw/_year=2024/_month=09/_day=30/_date=2024-09-30/test.json" := by decide

example : generateObjectKeyBase "/raw/test/" "test.json" = "raw/test/test.json" := by decide

example : generateFolderDestinationByDate "/directory/" ⟨2024, 9, 30⟩ =
    "directory/_year=2024/_month=09/_day=30/_date=2024-09-30" := by decide

/-! Helper lemmas about trimming. -/

/-- Whatever `dropWhile p` keeps starts with an element on which `p` fails. -/
theorem head?_dropWhile_false {α : Type} (p : α → Bool) (l : List α) (a : α)
    (h : (List.dropWhile p l).head? = some a) : p a = false := by
  induction l with
  | nil => simp [List.dropWhile] at h
  | cons x xs ih =>
    rw [List.dropWhile_cons] at h
    by_cases hx : p x
    · rw [if_pos hx] at h
      exact ih h
    · rw [if_neg hx] at h
      simp only [List.head?_cons, Option.some.injEq] at h
      subst h
      simpa using hx

/-- Left trimming is the identity on a list whose head already fails `p`. -/
theorem dropWhile_eq_self_of_head {α : Type} (p : α → Bool) (m : List α)
    (h : ∀ a, m.head? = some a → p a = false) : List.dropWhile p m = m := by
  cases m with
  | nil => simp
  | cons x xs =>
    rw [List.dropWhile_cons, if_neg]
    simp [h x rfl]

/-- The list-level trim underlying `trimSlashes` absorbs a second left trim. -/
theorem dropWhile_rdropWhile_dropWhile {α : Type} (p : α → Bool) (l : List α) :
    List.dropWhile p (List.rdropWhile p (List.dropWhile p l)) =
      List.rdropWhile p (List.dropWhile p l) := by
  apply dropWhile_eq_self_of_head
  intro a ha
  obtain ⟨t, ht⟩ := List.rdropWhile_prefix p (List.dropWhile p l)
  apply head?_dropWhile_false p l a
  rcases hr : List.rdropWhile p (List.dropWhile p l) with _ | ⟨x, xs⟩
  · rw [hr] at ha
    simp at ha
  · rw [hr] at ha ht
    simp only [List.head?_cons, Option.some.injEq] at ha
    subst ha
    rw [← ht]
    simp

/-- Go's `strings.Trim(·, "/")` is idempotent. -/
theorem trimSlashes_idem (s : String) : trimSlashes (trimSlashes s) = trimSlashes s := by
  show String.mk (List.rdropWhile isSlash (List.dropWhile isSlash
      (List.rdropWhile isSlash (List.dropWhile isSlash s.data)))) = _
  rw [dropWhile_rdropWhile_dropWhile, List.rdropWhile_idempotent]
  rfl

/-- Trimming only removes leading and trailing slashes: the original directory
is a run of slashes, then the trimmed directory verbatim, then a run of
slashes. -/
theorem trimSlashes_decomp (s : String) :
    ∃ n m, s.data = List.replicate n '/' ++ (trimSlashes s).data ++ List.replicate m '/' := by
  have hmid : s.data =
      List.takeWhile isSlash s.data ++
        (List.rdropWhile isSlash (List.dropWhile isSlash s.data) ++
          List.rtakeWhile isSlash (List.dropWhile isSlash s.data)) := by
    rw [List.rdropWhile, List.rtakeWhile, ← List.reverse_append,
      List.takeWhile_append_dropWhile, List.reverse_reverse,
      List.takeWhile_append_dropWhile]
  obtain ⟨n, hn⟩ : ∃ n, List.takeWhile isSlash s.data = List.replicate n '/' :=
    ⟨_, List.eq_replicate_length.mpr fun b hb => by
      simpa [isSlash] using List.mem_takeWhile_imp hb⟩
  obtain ⟨m, hm⟩ : ∃ m, List.rtakeWhile isSlash (List.dropWhile isSlash s.data) =
      List.replicate m '/' :=
    ⟨_, List.eq_replicate_length.mpr fun b hb => by
      simpa [isSlash] using List.mem_rtakeWhile_imp hb⟩
  refine ⟨n, m, ?_⟩
  rw [hmid, hn, hm, List.append_assoc]
  rfl

/-! Helper lemmas about decimal rendering. -/

theorem natDigitsAux_eq (fuel : Nat) : ∀ n : Nat, n ≤ fuel →
    natDigitsAux fuel n = ((Nat.digits 10 n).map Nat.digitChar).reverse := by
  induction fuel with
  | zero =>
    intro n hn
    have : n = 0 := Nat.le_zero.mp hn
    subst this
    simp [natDigitsAux]
  | succ fuel ih =>
    intro n hn
    rw [natDigitsAux]
    by_cases h0 : n = 0
    · subst h0
      simp
    · rw [if_neg h0, Nat.digits_def' (by norm_num : (1:ℕ) < 10) (Nat.pos_of_ne_zero h0),
        List.map_cons, List.reverse_cons]
      have hdiv : n / 10 < n := Nat.div_lt_self (Nat.pos_of_ne_zero h0) (by norm_num)
      rw [ih (n / 10) (Nat.le_of_lt_succ (Nat.lt_of_lt_of_le hdiv hn))]

/-- The plain decimal rendering of a positive `n` has as many characters as
`n` has decimal digits. -/
theorem natToStr_length (n : Nat) (hn : n ≠ 0) :
    (natToStr n).length = Nat.log 10 n + 1 := by
  unfold natToStr
  rw [if_neg hn]
  show (natDigitsAux n n).length = _
  rw [natDigitsAux_eq n n le_rfl, List.length_reverse, List.length_map,
    Nat.digits_len 10 n (by norm_num) hn]

theorem natToStr_length_four (y : Nat) (h1 : 1000 ≤ y) (h2 : y ≤ 9999) :
    (natToStr y).length = 4 := by
  rw [natToStr_length y (by omega)]
  have : Nat.log 10 y = 3 :=
    Nat.log_eq_of_pow_le_of_lt_pow (by norm_num; omega) (by norm_num; omega)
  omega

/-! Helper lemmas about splitting. -/

theorem splitOnSlash_ne_nil : ∀ l : List Char, splitOnSlash l ≠ [] := by
  intro l
  cases l with
  | nil => simp [splitOnSlash]
  | cons c cs =>
    rw [splitOnSlash]
    by_cases hc : c = '/'
    · rw [if_pos hc]
      simp
    · rw [if_neg hc]
      split <;> simp

theorem splitOnSlash_append_slash_len :
    ∀ l : List Char, 2 ≤ (splitOnSlash (l ++ ['/'])).length := by
  intro l
  induction l with
  | nil => decide
  | cons c cs ih =>
    show 2 ≤ (splitOnSlash (c :: (cs ++ ['/']))).length
    rw [splitOnSlash]
    by_cases hc : c = '/'
    · rw [if_pos hc]
      simp only [List.length_cons]
      omega
    · rw [if_neg hc]
      split
      · rename_i heq
        exact absurd heq (splitOnSlash_ne_nil _)
      · rename_i s ss heq
        rw [heq] at ih
        simpa using ih

/-- Splitting a list that ends in `'/'` yields an empty final segment. -/
theorem splitOnSlash_getLast_append_slash :
    ∀ l : List Char, (splitOnSlash (l ++ ['/'])).getLast? = some [] := by
  intro l
  induction l with
  | nil => decide
  | cons c cs ih =>
    show (splitOnSlash (c :: (cs ++ ['/']))).getLast? = some []
    rw [splitOnSlash]
    by_cases hc : c = '/'
    · rw [if_pos hc]
      rcases hs : splitOnSlash (cs ++ ['/']) with _ | ⟨s, ss⟩
      · exact absurd hs (splitOnSlash_ne_nil _)
      · rw [hs] at ih
        rw [List.getLast?_cons_cons]
        exact ih
    · rw [if_neg hc]
      split
      · rename_i heq
        exact absurd heq (splitOnSlash_ne_nil _)
      · rename_i s ss heq
        have hlen := splitOnSlash_append_slash_len cs
        rw [heq] at hlen ih
        rcases ss with _ | ⟨z, zs⟩
        · simp at hlen
        · rw [List.getLast?_cons_cons] at ih
          rw [List.getLast?_cons_cons]
          exact ih

/-! The stateful client operations, embedded over explicit oracles.

Each Go method of `Client` becomes a pure Lean function taking the
filesystem and provider behavior as arguments and returning the Go result
together with the ordered trace of filesystem/network effects performed. -/

/-- The library's error taxonomy (`errors.go`): `ValidationError` carries a
message; `SDKError` and `S3Error` carry a message and wrap a cause. -/
inductive GoError where
  | validation (msg : String)
  | sdk (msg : String) (cause : String)
  | s3 (msg : String) (cause : String)
deriving DecidableEq

/-- One observable filesystem or network action of the Go code. -/
inductive Effect where
  | openFile (path : String)
  | statFile (path : String)
  | listObjects (bucket pfx : String)
  | putObject (bucket key : String)
  | deleteObjectsBatch (bucket : String) (keys : List String) (quiet : Bool)
deriving DecidableEq

/-- Behavior of the local filesystem: what `os.Open` and `File.Stat` return
for a given path (`.error` is the failure's message). -/
structure FileSys where
  openResult : String → Except String Unit
  statSize : String → Except String Nat

/-- Behavior of the S3 provider: what each SDK call returns.
`listObjectsV2 bucket p` yields the keys of the single page of results for
the requested leading string `p`. -/
structure Provider where
  listObjectsV2 : String → String → Except String (List String)
  putObject : String → String → Except String Unit
  deleteObjects : String → List String → Bool → Except String Unit

/-- Embedding of `Client.UploadFileBase`: validate the four arguments, build
the key with `generateObjectKeyBase`, open the file, stat it, reject empty
files, then put the object. -/
def UploadFileBase (fs : FileSys) (pv : Provider)
    (bucketName directory filePath externalFilename : String) :
    Except GoError Unit × List Effect :=
  if bucketName = "" then (.error (.validation "bucket name is empty"), [])
  else if directory = "" then (.error (.validation "directory is empty"), [])
  else if filePath = "" then (.error (.validation "file path is empty"), [])
  else if externalFilename = "" then (.error (.validation "external filename is empty"), [])
  else
    let objectKey := generateObjectKeyBase directory externalFilename
    match fs.openResult filePath with
    | .error e => (.error (.sdk "unable to open file" e), [.openFile filePath])
    | .ok _ =>
      match fs.statSize filePath with
      | .error e => (.error (.sdk "unable to get file info" e),
          [.openFile filePath, .statFile filePath])
      | .ok size =>
        if size = 0 then (.error (.validation "file is empty"),
            [.openFile filePath, .statFile filePath])
        else
          match pv.putObject bucketName objectKey with
          | .error e => (.error (.s3 "unable to upload file" e),
              [.openFile filePath, .statFile filePath, .putObject bucketName objectKey])
          | .ok _ => (.ok (),
              [.openFile filePath, .statFile filePath, .putObject bucketName objectKey])

/-- Embedding of `Client.UploadFileWithDateDestination`: validate bucket,
directory, path and a non-zero date, build the key with
`generateObjectKeyByDate`, open, stat, reject empty files, then put. -/
def UploadFileWithDateDestination (fs : FileSys) (pv : Provider)
    (bucketName directory filePath : String) (date : GoDate) :
    Except GoError Unit × List Effect :=
  if bucketName = "" then (.error (.validation "bucket name is empty"), [])
  else if directory = "" then (.error (.validation "directory is empty"), [])
  else if filePath = "" then (.error (.validation "file path is empty"), [])
  else if date.isZero then (.error (.validation "date is empty"), [])
  else
    let objectKey := generateObjectKeyByDate directory filePath date
    match fs.openResult filePath with
    | .error e => (.error (.sdk "unable to open file" e), [.openFile filePath])
    | .ok _ =>
      match fs.statSize filePath with
      | .error e => (.error (.sdk "unable to get file info" e),
          [.openFile filePath, .statFile filePath])
      | .ok size =>
        if size = 0 then (.error (.validation "file is empty"),
            [.openFile filePath, .statFile filePath])
        else
          match pv.putObject bucketName objectKey with
          | .error e => (.error (.s3 "unable to upload file" e),
              [.openFile filePath, .statFile filePath, .putObject bucketName objectKey])
          | .ok _ => (.ok (),
              [.openFile filePath, .statFile filePath, .putObject bucketName objectKey])

/-- Embedding of `Client.DeleteFolderByDate`: validate arguments, list the
single page of objects under the `generateFolderDestinationByDate` result,
return success if none were listed, otherwise batch-delete exactly the
listed keys (with `Quiet: false` in this variant). -/
def DeleteFolderByDate (pv : Provider) (bucketName directory : String) (date : GoDate) :
    Except GoError Unit × List Effect :=
  if bucketName = "" then (.error (.validation "bucket name is empty"), [])
  else if directory = "" then (.error (.validation "directory is empty"), [])
  else if date.isZero then (.error (.validation "date is empty"), [])
  else
    let objectKey := generateFolderDestinationByDate directory date
    match pv.listObjectsV2 bucketName objectKey with
    | .error e => (.error (.s3 "unable to list objects" e), [.listObjects bucketName objectKey])
    | .ok contents =>
      if contents.length = 0 then (.ok (), [.listObjects bucketName objectKey])
      else
        match pv.deleteObjects bucketName contents false with
        | .error e => (.error (.s3 "unable to delete objects" e),
            [.listObjects bucketName objectKey,
              .deleteObjectsBatch bucketName contents false])
        | .ok _ => (.ok (),
            [.listObjects bucketName objectKey,
              .deleteObjectsBatch bucketName contents false])

/-- Embedding of `Client.IsObjectExists`: validate both arguments, trim the
key with `strings.Trim(key, "/")`, list objects under the trimmed key, and
report whether the listing is non-empty. -/
def IsObjectExists (pv : Provider) (bucketName key : String) :
    Except GoError Bool × List Effect :=
  if bucketName = "" then (.error (.validation "bucket name is empty"), [])
  else if key = "" then (.error (.validation "key is empty"), [])
  else
    let trimmed := trimSlashes key
    match pv.listObjectsV2 bucketName trimmed with
    | .error e => (.error (.s3 "unable to list objects" e), [.listObjects bucketName trimmed])
    | .ok contents =>
      if contents.length = 0 then (.ok false, [.listObjects bucketName trimmed])
      else (.ok true, [.listObjects bucketName trimmed])

/-- Reference model of the provider collaborator (spec §6): the bucket holds
`objects`, and a listing call for `p` returns every stored key that begins
with `p`; writes and deletes succeed. -/
def listKeys (objects : List String) (p : String) : List String :=
  objects.filter fun k => List.isPrefixOf p.data k.data

/-- A provider whose (single) bucket holds exactly `objects`. -/
def mkProvider (objects : List String) : Provider where
  listObjectsV2 := fun _ p => .ok (listKeys objects p)
  putObject := fun _ _ => .ok ()
  deleteObjects := fun _ _ _ => .ok ()

/-- Shared characterization of `IsObjectExists` against the reference
provider: with non-empty arguments it trims the key, issues exactly one
listing call with the trimmed key as the requested leading string, and
returns whether some stored key extends it. -/
theorem isObjectExists_mkProvider (objects : List String) (bucketName key : String)
    (hb : bucketName ≠ "") (hk : key ≠ "") :
    IsObjectExists (mkProvider objects) bucketName key =
      (.ok (objects.any fun k => List.isPrefixOf (trimSlashes key).data k.data),
        [.listObjects bucketName (trimSlashes key)]) := by
  have hiff : ((listKeys objects (trimSlashes key)).length = 0) ↔
      (objects.any fun k => List.isPrefixOf (trimSlashes key).data k.data) = false := by
    rw [List.length_eq_zero, listKeys, List.filter_eq_nil_iff, List.any_eq_false]
  simp only [IsObjectExists, mkProvider, if_neg hb, if_neg hk]
  by_cases hzero : (listKeys objects (trimSlashes key)).length = 0
  · rw [if_pos hzero, hiff.mp hzero]
  · rw [if_neg hzero]
    rcases hany : (objects.any fun k => List.isPrefixOf (trimSlashes key).data k.data)
    · exact absurd (hiff.mpr hany) hzero
    · rfl

/-- The dated object key is the dated folder destination, then `"/"`, then
the extracted final segment of the file path. -/
theorem generateObjectKeyByDate_split (d p : String) (t : GoDate) :
    generateObjectKeyByDate d p t =
      (generateFolderDestinationByDate d t ++ "/") ++ lastSegment p := rfl

/-- Character-level form of `generateObjectKeyByDate_split`. -/
theorem generateObjectKeyByDate_data (d p : String) (t : GoDate) :
    (generateObjectKeyByDate d p t).data =
      (generateFolderDestinationByDate d t).data ++ '/' :: (lastSegment p).data := by
  rw [generateObjectKeyByDate_split, String.data_append, String.data_append,
    List.append_assoc]
  rfl

/-! The claims. -/

/-- C1: `BuildDatedKey` (`generateObjectKeyByDate`) returns exactly
`normalize(d) + "/_year=" + year + "/_month=" + month + "/_day=" + day +
"/_date=" + isoDate + "/" + fileName`, where `normalize` strips leading and
trailing `'/'` from the directory, `fileName` is the final `'/'`-separated
segment of the path, and `isoDate` is the `YYYY-MM-DD` rendering of the
date; in particular the documented literal for ("dir1", "test.txt",
2022-01-01) is reproduced. -/
theorem generateObjectKeyByDate_contract :
    (∀ (d p : String) (t : GoDate),
      generateObjectKeyByDate d p t =
        trimSlashes d ++ "/_year=" ++ natToStr t.year ++ "/_month=" ++ pad2 t.month ++
          "/_day=" ++ pad2 t.day ++ "/_date=" ++
          (pad4 t.year ++ "-" ++ pad2 t.month ++ "-" ++ pad2 t.day) ++ "/" ++
          lastSegment p) ∧
    generateObjectKeyByDate "dir1" "test.txt" ⟨2022, 1, 1⟩ =
      "dir1/_year=2022/_month=01/_day=01/_date=2022-01-01/test.txt" :=
  ⟨fun _ _ _ => rfl, by decide⟩

/-- C4: `BuildBaseKey` (`generateObjectKeyBase`) is invariant under stripping
leading and trailing slashes from the directory argument, and stripping
preserves the directory's interior verbatim: the original directory is a run
of slashes, then the stripped directory unchanged, then a run of slashes. -/
theorem generateObjectKeyBase_trim_invariant :
    (∀ d f : String, generateObjectKeyBase d f = generateObjectKeyBase (trimSlashes d) f) ∧
    (∀ d : String, ∃ n m,
      d.data = List.replicate n '/' ++ (trimSlashes d).data ++ List.replicate m '/') := by
  constructor
  · intro d f
    unfold generateObjectKeyBase
    rw [trimSlashes_idem]
  · exact trimSlashes_decomp

/-- C5: for every directory, file path, and date, the dated folder
destination is a strict prefix of the dated object key. -/
theorem folderDestination_strictPrefix_of_objectKey :
    ∀ (d p : String) (t : GoDate),
      List.IsPrefix (generateFolderDestinationByDate d t).data
        (generateObjectKeyByDate d p t).data ∧
      generateFolderDestinationByDate d t ≠ generateObjectKeyByDate d p t := by
  intro d p t
  have hdata := generateObjectKeyByDate_data d p t
  constructor
  · exact ⟨'/' :: (lastSegment p).data, hdata.symm⟩
  · intro heq
    have hlen := congrArg (fun s : String => s.data.length) heq
    simp only [hdata, List.length_append, List.length_cons] at hlen
    omega

/-- C10: for every file path ending in `'/'`, the final-segment extraction in
`generateObjectKeyByDate` yields the empty string, and the produced object
key ends with a trailing `'/'`. -/
theorem trailingSlash_path_yields_trailingSlash_key :
    ∀ (d q : String) (t : GoDate),
      lastSegment (q ++ "/") = "" ∧
      (generateObjectKeyByDate d (q ++ "/") t).data.getLast? = some '/' := by
  intro d q t
  have hq : (q ++ "/").data = q.data ++ ['/'] := by
    rw [String.data_append]
  have hseg : lastSegment (q ++ "/") = "" := by
    unfold lastSegment
    rw [hq, splitOnSlash_getLast_append_slash]
    rfl
  refine ⟨hseg, ?_⟩
  rw [generateObjectKeyByDate_data, hseg]
  exact List.getLast?_concat _

/-- C6 counterexample: at year 202, month 1, day 5 — a valid calendar date Go
accepts — the `_year=` field of the produced key has three characters, not
four: the year is rendered unpadded via `%v`, while only the `_date=` field
pads it. -/
theorem yearField_three_chars_at_year_202 :
    (GoDate.mk 202 1 5).Valid ∧
    (natToStr (GoDate.mk 202 1 5).year).length = 3 ∧
    generateObjectKeyByDate "x" "f.txt" ⟨202, 1, 5⟩ =
      "x/_year=202/_month=01/_day=05/_date=0202-01-05/f.txt" :=
  ⟨by decide, by decide, by decide⟩

/-- C6 (amended): for every valid date, the `_month=` and `_day=` fields of
the produced key are exactly two zero-padded characters, and the `_year=`
field has exactly four characters provided the year lies between 1000 and
9999 (the year is rendered unpadded, so years outside that range yield other
widths); e.g. the key for 2024-01-05 contains `_month=01` and `_day=05`. -/
theorem key_partition_field_widths (t : GoDate) (h : t.Valid) :
    (pad2 t.month).length = 2 ∧ (pad2 t.day).length = 2 ∧
    (1000 ≤ t.year → t.year ≤ 9999 → (natToStr t.year).length = 4) ∧
    List.IsInfix "_month=01".data (generateObjectKeyByDate "x" "f.txt" ⟨2024, 1, 5⟩).data ∧
    List.IsInfix "_day=05".data (generateObjectKeyByDate "x" "f.txt" ⟨2024, 1, 5⟩).data := by
  obtain ⟨h1, h2, h3, h4⟩ := h
  refine ⟨?_, ?_, fun hy1 hy2 => natToStr_length_four t.year hy1 hy2, by decide, by decide⟩
  · have hball : ∀ m : Nat, m < 13 → 1 ≤ m → (pad2 m).length = 2 := by decide
    exact hball t.month (by omega) h1
  · have hball : ∀ m : Nat, m < 32 → 1 ≤ m → (pad2 m).length = 2 := by decide
    exact hball t.day (by omega) h3

/-- C6 witness: the amended statement instantiated at the valid date
2024-01-05. -/
theorem key_partition_field_widths_witness :
    (pad2 (GoDate.mk 2024 1 5).month).length = 2 ∧
    (pad2 (GoDate.mk 2024 1 5).day).length = 2 ∧
    (1000 ≤ (GoDate.mk 2024 1 5).year → (GoDate.mk 2024 1 5).year ≤ 9999 →
      (natToStr (GoDate.mk 2024 1 5).year).length = 4) ∧
    List.IsInfix "_month=01".data (generateObjectKeyByDate "x" "f.txt" ⟨2024, 1, 5⟩).data ∧
    List.IsInfix "_day=05".data (generateObjectKeyByDate "x" "f.txt" ⟨2024, 1, 5⟩).data :=
  key_partition_field_widths ⟨2024, 1, 5⟩ (by decide)

/-- C2: `UploadFileBase` and `UploadFileWithDateDestination` called with an
empty bucket, directory, or local file path return a `ValidationError` with
an empty effect trace: no file handle is opened and no network call is made
before returning. -/
theorem upload_empty_arg_validation (fs : FileSys) (pv : Provider)
    (bucketName directory filePath externalFilename : String) (date : GoDate)
    (h : bucketName = "" ∨ directory = "" ∨ filePath = "") :
    (∃ msg, UploadFileBase fs pv bucketName directory filePath externalFilename =
      (.error (.validation msg), [])) ∧
    (∃ msg, UploadFileWithDateDestination fs pv bucketName directory filePath date =
      (.error (.validation msg), [])) := by
  constructor
  · unfold UploadFileBase
    split_ifs with h1 h2 h3 h4
    · exact ⟨_, rfl⟩
    · exact ⟨_, rfl⟩
    · exact ⟨_, rfl⟩
    · exact ⟨_, rfl⟩
    · rcases h with h | h | h
      exacts [absurd h h1, absurd h h2, absurd h h3]
  · unfold UploadFileWithDateDestination
    split_ifs with h1 h2 h3 h4
    · exact ⟨_, rfl⟩
    · exact ⟨_, rfl⟩
    · exact ⟨_, rfl⟩
    · exact ⟨_, rfl⟩
    · rcases h with h | h | h
      exacts [absurd h h1, absurd h h2, absurd h h3]

/-- C2 witness: both uploads with an empty bucket name. -/
theorem upload_empty_arg_validation_witness :
    (∃ msg, UploadFileBase ⟨fun _ => .ok (), fun _ => .ok 1⟩ (mkProvider [])
      "" "dir" "f.txt" "ext" = (.error (.validation msg), [])) ∧
    (∃ msg, UploadFileWithDateDestination ⟨fun _ => .ok (), fun _ => .ok 1⟩ (mkProvider [])
      "" "dir" "f.txt" ⟨2022, 1, 1⟩ = (.error (.validation msg), [])) :=
  upload_empty_arg_validation _ _ "" "dir" "f.txt" "ext" ⟨2022, 1, 1⟩ (Or.inl rfl)

/-- C9: with valid arguments, an existing local file of size zero makes both
upload operations return the `ValidationError` "file is empty" after the
file was opened and statted, with no network put issued. -/
theorem upload_zero_size_file_rejected (fs : FileSys) (pv : Provider)
    (bucketName directory filePath externalFilename : String) (date : GoDate)
    (hb : bucketName ≠ "") (hd : directory ≠ "") (hp : filePath ≠ "")
    (he : externalFilename ≠ "") (hz : date.isZero = false)
    (hopen : fs.openResult filePath = .ok ()) (hstat : fs.statSize filePath = .ok 0) :
    UploadFileBase fs pv bucketName directory filePath externalFilename =
      (.error (.validation "file is empty"), [.openFile filePath, .statFile filePath]) ∧
    UploadFileWithDateDestination fs pv bucketName directory filePath date =
      (.error (.validation "file is empty"), [.openFile filePath, .statFile filePath]) := by
  constructor
  · simp [UploadFileBase, hb, hd, hp, he, hopen, hstat]
  · simp [UploadFileWithDateDestination, hb, hd, hp, hz, hopen, hstat]

/-- C9 witness: a filesystem whose file exists with size zero. -/
theorem upload_zero_size_file_rejected_witness :
    UploadFileBase ⟨fun _ => .ok (), fun _ => .ok 0⟩ (mkProvider []) "b" "dir" "f.txt" "ext" =
      (.error (.validation "file is empty"), [.openFile "f.txt", .statFile "f.txt"]) ∧
    UploadFileWithDateDestination ⟨fun _ => .ok (), fun _ => .ok 0⟩ (mkProvider [])
        "b" "dir" "f.txt" ⟨2022, 1, 1⟩ =
      (.error (.validation "file is empty"), [.openFile "f.txt", .statFile "f.txt"]) :=
  upload_zero_size_file_rejected ⟨fun _ => .ok (), fun _ => .ok 0⟩ (mkProvider [])
    "b" "dir" "f.txt" "ext" ⟨2022, 1, 1⟩ (by decide) (by decide) (by decide) (by decide)
    (by decide) rfl rfl

/-- C3: with valid arguments and a listing of the computed date destination
returning zero objects, `DeleteFolderByDate` returns success having issued
only the listing call — no batch-delete call. -/
theorem deleteFolderByDate_empty_listing_noop (pv : Provider)
    (bucketName directory : String) (date : GoDate)
    (hb : bucketName ≠ "") (hd : directory ≠ "") (hz : date.isZero = false)
    (hlist : pv.listObjectsV2 bucketName
      (generateFolderDestinationByDate directory date) = .ok []) :
    DeleteFolderByDate pv bucketName directory date =
      (.ok (), [.listObjects bucketName
        (generateFolderDestinationByDate directory date)]) := by
  simp [DeleteFolderByDate, hb, hd, hz, hlist]

/-- C3 witness: an empty bucket. -/
theorem deleteFolderByDate_empty_listing_noop_witness :
    DeleteFolderByDate (mkProvider []) "b" "dir" ⟨2022, 1, 1⟩ =
      (.ok (), [.listObjects "b"
        (generateFolderDestinationByDate "dir" ⟨2022, 1, 1⟩)]) :=
  deleteFolderByDate_empty_listing_noop (mkProvider []) "b" "dir" ⟨2022, 1, 1⟩
    (by decide) (by decide) (by decide) rfl

/-- C7: with non-empty bucket and key, `IsObjectExists` strips leading and
trailing `'/'` from the key, lists objects using the trimmed key as the
requested leading string, and returns true iff the listing is non-empty —
so it reports true whenever some stored key extends the trimmed key, even
when no object has exactly that key. -/
theorem isObjectExists_trimmed_listing (objects : List String) (bucketName key : String)
    (hb : bucketName ≠ "") (hk : key ≠ "") :
    IsObjectExists (mkProvider objects) bucketName key =
      (.ok (objects.any fun k => List.isPrefixOf (trimSlashes key).data k.data),
        [.listObjects bucketName (trimSlashes key)]) :=
  isObjectExists_mkProvider objects bucketName key hb hk

/-- C7 witness: the bucket holds only "dir/a.txt"; the key "/dir/" is trimmed
to "dir", which is not itself a stored key, yet the check reports true. -/
theorem isObjectExists_trimmed_listing_witness :
    IsObjectExists (mkProvider ["dir/a.txt"]) "b" "/dir/" =
      (.ok true, [.listObjects "b" "dir"]) := by
  rw [isObjectExists_trimmed_listing ["dir/a.txt"] "b" "/dir/" (by decide) (by decide)]
  rfl

/-- C8: a key consisting solely of `'/'` characters passes the non-empty
validation, trims to the empty string, and makes `IsObjectExists` list the
bucket with an empty requested string: it returns true exactly when the
bucket holds at least one object, regardless of the key supplied. -/
theorem isObjectExists_all_slash_key (objects : List String) (bucketName key : String)
    (hb : bucketName ≠ "") (hk : key ≠ "") (hslash : ∀ c ∈ key.data, c = '/') :
    trimSlashes key = "" ∧
    IsObjectExists (mkProvider objects) bucketName key =
      (.ok (!objects.isEmpty), [.listObjects bucketName ""]) := by
  have hdw : List.dropWhile isSlash key.data = [] :=
    List.dropWhile_eq_nil_iff.mpr fun x hx => by simp [isSlash, hslash x hx]
  have htrim : trimSlashes key = "" := by
    unfold trimSlashes
    rw [hdw]
    rfl
  refine ⟨htrim, ?_⟩
  rw [isObjectExists_mkProvider objects bucketName key hb hk, htrim]
  have hnil : ("" : String).data = [] := rfl
  have hany : (objects.any fun k => List.isPrefixOf ("" : String).data k.data) =
      !objects.isEmpty := by
    cases objects with
    | nil => rfl
    | cons x xs => simp [hnil, List.isPrefixOf]
  rw [hany]

/-- C8 witness: the key "///" against a bucket holding one object. -/
theorem isObjectExists_all_slash_key_witness :
    trimSlashes "///" = "" ∧
    IsObjectExists (mkProvider ["a"]) "b" "///" =
      (.ok true, [.listObjects "b" ""]) :=
  isObjectExists_all_slash_key ["a"] "b" "///" (by decide) (by decide) (by decide)

end S3Utils
